import Mathlib

/-!
Greeter endpoint: a shallow embedding of the single Express route of
`src/functions/example/main.js`,

    app.use(express.json());
    app.post('/', (req, res) => {
      const { name } = req.body;
      if (!name) {
        return res.status(400).json({ error: 'Name is required' });
      }
      res.json({ message: `Hello, ${name}` });
    });

together with the fragment of ECMAScript the handler evaluates on the values
that `JSON.parse` can build: property lookup of `name`, `ToBoolean` (for
`!name`) and `ToString` (for the template literal).  The Express response
object `res` and the state of the Node process are modelled by explicit state
passing.
-/

namespace Greeter

/-! ## JavaScript values produced by the JSON body parser -/

/-- A JavaScript string: a finite sequence of UTF-16 code units. -/
abbrev JSString := List Nat

/-- UTF-16 code units of a string literal. -/
def utf16 (s : String) : JSString :=
  s.toList.flatMap fun c =>
    if c.toNat < 0x10000 then [c.toNat]
    else [0xD800 + (c.toNat - 0x10000) / 0x400, 0xDC00 + (c.toNat - 0x10000) % 0x400]

/-- Decimal digits of a natural number, most significant first, as code units. -/
def decimal (n : Nat) : JSString :=
  (Nat.toDigits 10 n).map Char.toNat

/-- A Number value that `JSON.parse` can return.  A finite non-zero Number is
given in the coordinates ECMA-262 `Number::toString` works with: the integer
`s` holding the `k` significant decimal digits of the shortest decimal form
that reads back as the Number (`s` positive and not a multiple of ten) and
the exponent `n`, the value being `± s × 10^(n - k)`.  `NaN` is absent: no
JSON text parses to it.  The infinities are present: `1e999` parses to
`Infinity`. -/
inductive JSNumber where
  | zero (negative : Bool)
  | finite (negative : Bool) (s : Nat) (n : Int)
  | infinity (negative : Bool)
deriving DecidableEq, Repr

/-- A value built by `JSON.parse`.  The members of an object are kept in the
order in which they were created. -/
inductive JSValue where
  | null
  | bool (b : Bool)
  | number (x : JSNumber)
  | string (s : JSString)
  | array (elems : List JSValue)
  | object (members : List (JSString × JSValue))

/-- Exceptions the handler can run into. -/
inductive JSError where
  | typeError
  | rangeError
  | headersSent
deriving DecidableEq, Repr

/-! ## ECMAScript operations used by the handler -/

/-- Own property lookup on the member list of a parsed object: when a key was
written twice, the later member replaced the earlier one. -/
def getOwn (key : JSString) : List (JSString × JSValue) → Option JSValue
  | [] => none
  | (k, v) :: rest =>
    match getOwn key rest with
    | some w => some w
    | none => if k = key then some v else none

/-- Whether the member list has an own property `key`. -/
def hasOwn (key : JSString) (members : List (JSString × JSValue)) : Bool :=
  members.any fun kv => kv.1 == key

/-- The binding `const { name } = body`: `none` is `undefined`.  Destructuring
`null` throws; a primitive is wrapped and its prototype chain has no `name`;
an array has no `name` either; an object yields its own property `name`, or
`undefined`, `Object.prototype` having none. -/
def JSValue.getName : JSValue → Except JSError (Option JSValue)
  | .null => .error .typeError
  | .bool _ => .ok none
  | .number _ => .ok none
  | .string _ => .ok none
  | .array _ => .ok none
  | .object members => .ok (getOwn (utf16 "name") members)

/-- Values that `express.json()` hands to the handler: in its default strict
mode the parser accepts only a top-level object or array. -/
def JSValue.parsedBody : JSValue → Bool
  | .array _ => true
  | .object _ => true
  | _ => false

/-- ECMA-262 `ToBoolean` on a Number: the zeros are falsy. -/
def JSNumber.toBoolean : JSNumber → Bool
  | .zero _ => false
  | .finite _ _ _ => true
  | .infinity _ => true

/-- ECMA-262 `ToBoolean`, with `none` for `undefined`. -/
def toBoolean : Option JSValue → Bool
  | none => false
  | some .null => false
  | some (.bool b) => b
  | some (.number x) => x.toBoolean
  | some (.string s) => !s.isEmpty
  | some (.array _) => true
  | some (.object _) => true

/-- ECMA-262 `Number::toString` (radix 10) for a positive finite Number with
digits `s` and exponent `n`. -/
def formatDecimal (s : Nat) (n : Int) : JSString :=
  let ds := decimal s
  let k : Int := ds.length
  if k ≤ n ∧ n ≤ 21 then
    ds ++ List.replicate (n - k).toNat 48
  else if 0 < n ∧ n ≤ 21 then
    ds.take n.toNat ++ utf16 "." ++ ds.drop n.toNat
  else if -6 < n ∧ n ≤ 0 then
    utf16 "0." ++ List.replicate (-n).toNat 48 ++ ds
  else
    let e := n - 1
    let exponent := (if e < 0 then utf16 "-" else utf16 "+") ++ decimal e.natAbs
    if k = 1 then ds ++ utf16 "e" ++ exponent
    else ds.take 1 ++ utf16 "." ++ ds.drop 1 ++ utf16 "e" ++ exponent

/-- ECMA-262 `Number::toString` (radix 10). -/
def JSNumber.toJSString : JSNumber → JSString
  | .zero _ => utf16 "0"
  | .finite negative s n => (if negative then utf16 "-" else []) ++ formatDecimal s n
  | .infinity negative => (if negative then utf16 "-" else []) ++ utf16 "Infinity"

mutual
/-- ECMA-262 `ToString` on a parsed value, on an engine whose call stack
admits `stack` more nested array conversions.  An array goes through
`Array.prototype.toString`, that is `join(",")`, which converts the elements
by recursive calls: when the stack admits no further one the engine throws a
`RangeError`.  An object goes through `OrdinaryToPrimitive` with hint string:
an own property `toString` shadows `Object.prototype.toString` and, being a
parsed value, is not callable; then `valueOf` is either an own non-callable
property or `Object.prototype.valueOf`, which returns the object itself; no
primitive is obtained and a `TypeError` is thrown.  Without an own `toString`
the result is `[object Object]`. -/
def JSValue.toJSString : JSValue → Nat → Except JSError JSString
  | .null, _ => .ok (utf16 "null")
  | .bool b, _ => .ok (if b then utf16 "true" else utf16 "false")
  | .number x, _ => .ok x.toJSString
  | .string s, _ => .ok s
  | .array _, 0 => .error .rangeError
  | .array elems, stack + 1 => join elems stack true
  | .object members, _ =>
    if hasOwn (utf16 "toString") members then .error .typeError
    else .ok (utf16 "[object Object]")
/-- ECMA-262 `Array.prototype.join` with separator `,`: the separator comes
before every element but the first, and a `null` element contributes the empty
string. -/
def join : List JSValue → Nat → Bool → Except JSError JSString
  | [], _, _ => .ok []
  | e :: rest, stack, first => do
    let next ← (match e with
      | .null => pure []
      | e => e.toJSString stack)
    let tail ← join rest stack false
    pure ((if first then [] else utf16 ",") ++ next ++ tail)
end

/-- ECMA-262 `ToString` of a binding that may be `undefined`. -/
def toJSString : Option JSValue → Nat → Except JSError JSString
  | none, _ => .ok (utf16 "undefined")
  | some v, stack => v.toJSString stack

/-! ## The Express response object -/

/-- One HTTP response written by `res.json`. -/
structure Response where
  status : Nat
  body : JSValue

/-- State of the Express response object `res` of one request: the status
code that the next write will use and the responses written so far. -/
structure Res where
  statusCode : Nat
  sent : List Response

/-- The response object Express creates for a request: Node's default status
code is 200 and nothing has been written. -/
def Res.fresh : Res := ⟨200, []⟩

/-- `res.status(code)`: sets the status code and returns `res`. -/
def Res.status (res : Res) (code : Nat) : Res :=
  { res with statusCode := code }

/-- `res.json(body)`: writes `body` with the current status code.  Node
refuses a second write with `ERR_HTTP_HEADERS_SENT`. -/
def Res.json (res : Res) (body : JSValue) : Except JSError Res :=
  match res.sent with
  | [] => .ok { res with sent := [⟨res.statusCode, body⟩] }
  | _ :: _ => .error .headersSent

/-- The request object: only `req.body` is read. -/
structure Req where
  body : JSValue

/-! ## The Node process -/

/-- What outlives a request in the Node process running the module: the
number of nested array conversions that the call stack of the engine admits
below the handler (the source does not fix it), the port the server listens
on, and the lines written to the console. -/
structure Process where
  stack : Nat
  port : Option Nat
  console : List JSString

/-- The process once `app.listen(3000, ...)` has run its callback, on an
engine whose stack admits `stack` nested array conversions. -/
def listen (stack : Nat) : Process :=
  ⟨stack, some 3000, [utf16 "Greeter server running on port 3000"]⟩

/-- JavaScript code run inside the process: it may throw, and it may read and
write the state of the process. -/
abbrev JS := ExceptT JSError (StateM Process)

/-- The conversion of `${name}` in the template literal: `ToString` on the
call stack the process has left. -/
def interpolate (name : Option JSValue) : JS JSString := do
  let process ← get
  toJSString name process.stack

/-! ## The route handler -/

/-- The handler of `app.post('/')`. -/
def handler (req : Req) (res : Res) : JS Res := do
  let name ← req.body.getName
  if !toBoolean name then
    return ← (res.status 400).json (.object [(utf16 "error", .string (utf16 "Name is required"))])
  let greeting ← interpolate name
  res.json (.object [(utf16 "message", .string (utf16 "Hello, " ++ greeting))])

/-- One request served in the process state `process`: Express runs the
handler on a response object of its own.  The result is the outcome of the
handler together with the state in which it leaves the process. -/
def dispatch (process : Process) (body : JSValue) : Except JSError Res × Process :=
  (handler ⟨body⟩ Res.fresh).run.run process

/-- The outcome of one request served in the process state `process`. -/
def respond (process : Process) (body : JSValue) : Except JSError Res :=
  (dispatch process body).1

/-- The server on a sequence of requests, in arrival order: every request is
served in the process state left by the one before.  The result is the list
of outcomes and the final process state. -/
def serve : Process → List JSValue → List (Except JSError Res) × Process
  | process, [] => ([], process)
  | process, body :: rest =>
    let step := dispatch process body
    let run := serve step.2 rest
    (step.1 :: run.1, run.2)

/-- Keys of a response body. -/
def JSValue.keys : JSValue → List JSString
  | .object members => members.map Prod.fst
  | _ => []

/-- The body of the 400 response. -/
def errorBody : JSValue :=
  .object [(utf16 "error", .string (utf16 "Name is required"))]

/-- The body of the 200 response greeting `greeting`. -/
def messageBody (greeting : JSString) : JSValue :=
  .object [(utf16 "message", .string (utf16 "Hello, " ++ greeting))]

/-- Values whose `ToString` makes no recursive call and meets no own
`toString`: the primitives and the objects without an own `toString` member. -/
def JSValue.direct : JSValue → Bool
  | .array _ => false
  | .object members => !hasOwn (utf16 "toString") members
  | _ => true

/-- The bindings of `name` that are missing (`undefined`), a primitive (`null`,
a boolean, a number, a string) or an object without an own `toString`
member. -/
def directName : Option JSValue → Bool
  | none => true
  | some v => v.direct

/-- Removes the trailing decimal zeros of `m`, at most `fuel` of them. -/
def stripZeros : Nat → Nat → Nat
  | 0, m => m
  | fuel + 1, m => if m % 10 = 0 ∧ m ≠ 0 then stripZeros fuel (m / 10) else m

/-- The Number value of an integer `i` with `|i| < 2^53`: such an integer is
a Number exactly, and the shortest decimal form of a positive one is its
decimal digits without the trailing zeros.  A positive `m` has fewer than `m`
trailing zeros, so the fuel suffices. -/
def JSNumber.ofSafeInt (i : Int) : JSNumber :=
  if i = 0 then .zero false
  else .finite (decide (i < 0)) (stripZeros i.natAbs i.natAbs) (decimal i.natAbs).length

/-- Decimal form of an integer: a minus sign for a negative one, then the
digits of its absolute value. -/
def decimalInt (i : Int) : JSString :=
  (if i < 0 then utf16 "-" else []) ++ decimal i.natAbs

/-- The bindings the specification lists as falsy: missing or `undefined`,
`null`, the empty string, the number 0 (of either sign) and `false`. -/
def Falsy (name : Option JSValue) : Prop :=
  name = none ∨ name = some .null ∨ name = some (.string []) ∨
    (∃ negative, name = some (.number (.zero negative))) ∨ name = some (.bool false)

/-- The response body holds exactly one key, and it is `message` or `error`. -/
def JSValue.oneKey (body : JSValue) : Prop :=
  body.keys = [utf16 "message"] ∨ body.keys = [utf16 "error"]

/-! ## Unfolding the handler -/

/-- The handler as a function of the process state: the outcome, and the
process state left unchanged. -/
theorem dispatch_eq (process : Process) (body : JSValue) :
    dispatch process body =
      ((match body.getName with
        | .error e => .error e
        | .ok name =>
          if toBoolean name = false then (Res.fresh.status 400).json errorBody
          else
            match toJSString name process.stack with
            | .error e => .error e
            | .ok greeting => Res.fresh.json (messageBody greeting)), process) := by
  unfold dispatch handler interpolate
  cases hname : body.getName with
  | error e => rfl
  | ok name =>
    cases hb : toBoolean name with
    | false =>
      simp [ExceptT.run, bind, ExceptT.bind, ExceptT.bindCont, liftM, monadLift,
        MonadLift.monadLift, ExceptT.mk, StateT.run, StateT.bind, pure, StateT.pure,
        ExceptT.pure, hb, errorBody, Res.json, Res.status, Res.fresh]
    | true =>
      cases hconv : toJSString name process.stack with
      | error e =>
        simp [ExceptT.run, bind, ExceptT.bind, ExceptT.bindCont, liftM, monadLift,
          MonadLift.monadLift, ExceptT.mk, StateT.run, StateT.bind, pure, StateT.pure,
          ExceptT.pure, hb, hconv, get, getThe, MonadStateOf.get, StateT.get, ExceptT.lift,
          Functor.map, StateT.map]
      | ok greeting =>
        simp [ExceptT.run, bind, ExceptT.bind, ExceptT.bindCont, liftM, monadLift,
          MonadLift.monadLift, ExceptT.mk, StateT.run, StateT.bind, pure, StateT.pure,
          ExceptT.pure, hb, hconv, get, getThe, MonadStateOf.get, StateT.get, ExceptT.lift,
          Functor.map, StateT.map, messageBody]

theorem dispatch_frame (process : Process) (body : JSValue) :
    (dispatch process body).2 = process := by
  rw [dispatch_eq]

theorem respond_falsy (process : Process) {body : JSValue} {name : Option JSValue}
    (hname : body.getName = .ok name) (hfalsy : toBoolean name = false) :
    respond process body = .ok ⟨400, [⟨400, errorBody⟩]⟩ := by
  simp [respond, dispatch_eq, hname, hfalsy, Res.status, Res.json, Res.fresh]

theorem respond_truthy (process : Process) {body : JSValue} {name : Option JSValue}
    (hname : body.getName = .ok name) (htruthy : toBoolean name = true) :
    respond process body =
      match toJSString name process.stack with
      | .ok greeting => .ok ⟨200, [⟨200, messageBody greeting⟩]⟩
      | .error e => .error e := by
  simp only [respond, dispatch_eq, hname, htruthy]
  cases toJSString name process.stack <;> simp [Res.json, Res.fresh]

theorem respond_greets (process : Process) {body : JSValue} {name : Option JSValue}
    {greeting : JSString} (hname : body.getName = .ok name) (htruthy : toBoolean name = true)
    (hconv : toJSString name process.stack = .ok greeting) :
    respond process body = .ok ⟨200, [⟨200, messageBody greeting⟩]⟩ := by
  rw [respond_truthy process hname htruthy, hconv]

theorem respond_throws (process : Process) {body : JSValue} {name : Option JSValue}
    {e : JSError} (hname : body.getName = .ok name) (htruthy : toBoolean name = true)
    (hconv : toJSString name process.stack = .error e) :
    respond process body = .error e := by
  rw [respond_truthy process hname htruthy, hconv]

/-- The three outcomes of the handler. -/
theorem respond_cases (process : Process) {body : JSValue} {name : Option JSValue}
    (hname : body.getName = .ok name) :
    (toBoolean name = false ∧ respond process body = .ok ⟨400, [⟨400, errorBody⟩]⟩) ∨
      (toBoolean name = true ∧ ∃ greeting, toJSString name process.stack = .ok greeting ∧
          respond process body = .ok ⟨200, [⟨200, messageBody greeting⟩]⟩) ∨
      (toBoolean name = true ∧ ∃ e, toJSString name process.stack = .error e ∧
          respond process body = .error e) := by
  cases hb : toBoolean name with
  | false => exact Or.inl ⟨rfl, respond_falsy process hname hb⟩
  | true =>
    cases hconv : toJSString name process.stack with
    | error e => exact Or.inr (Or.inr ⟨rfl, e, rfl, respond_throws process hname hb hconv⟩)
    | ok g => exact Or.inr (Or.inl ⟨rfl, g, rfl, respond_greets process hname hb hconv⟩)

theorem serve_eq (bodies : List JSValue) : ∀ process : Process,
    serve process bodies = (bodies.map (respond process), process) := by
  induction bodies with
  | nil => intro process; rfl
  | cons body rest ih =>
    intro process
    simp only [serve, dispatch_frame, ih, List.map_cons, respond]

/-! ## When `ToString` completes at once -/

theorem toJSString_direct {name : Option JSValue} (h : directName name = true)
    (stack : Nat) : ∃ greeting, toJSString name stack = .ok greeting := by
  rcases name with _ | v
  · exact ⟨_, rfl⟩
  · cases v with
    | null => exact ⟨_, rfl⟩
    | bool b => exact ⟨_, rfl⟩
    | number x => exact ⟨_, rfl⟩
    | string s => exact ⟨_, rfl⟩
    | array elems => simp [directName, JSValue.direct] at h
    | object members =>
      simp only [directName, JSValue.direct, Bool.not_eq_true'] at h
      exact ⟨utf16 "[object Object]", by simp [toJSString, JSValue.toJSString, h]⟩

theorem toJSString_own_toString (members : List (JSString × JSValue))
    (h : hasOwn (utf16 "toString") members = true) (stack : Nat) :
    (JSValue.object members).toJSString stack = .error .typeError := by
  simp [JSValue.toJSString, h]

/-! ## Decimal digits and trailing zeros -/

theorem toDigitsCore_acc (fuel : Nat) : ∀ (n : Nat) (acc : List Char),
    Nat.toDigitsCore 10 fuel n acc = Nat.toDigitsCore 10 fuel n [] ++ acc := by
  induction fuel with
  | zero => intro n acc; simp [Nat.toDigitsCore]
  | succ fuel ih =>
    intro n acc
    simp only [Nat.toDigitsCore]
    by_cases h : n / 10 = 0
    · simp [h]
    · simp only [h, if_false]
      rw [ih (n / 10) (_ :: acc), ih (n / 10) [_]]
      simp

theorem toDigitsCore_fuel (fuel : Nat) : ∀ (other n : Nat) (acc : List Char),
    n < fuel → n < other →
    Nat.toDigitsCore 10 fuel n acc = Nat.toDigitsCore 10 other n acc := by
  induction fuel with
  | zero => intro other n acc h; omega
  | succ fuel ih =>
    intro other n acc hf ho
    cases other with
    | zero => omega
    | succ other =>
      simp only [Nat.toDigitsCore]
      by_cases h : n / 10 = 0
      · simp [h]
      · simp only [h, if_false]
        exact ih other (n / 10) _ (by omega) (by omega)

theorem decimal_mul_ten (m : Nat) (hm : 0 < m) :
    decimal (m * 10) = decimal m ++ [48] := by
  have hdiv : m * 10 / 10 = m := by omega
  have hmod : m * 10 % 10 = 0 := by omega
  have hne : ¬ m = 0 := by omega
  have hstep : Nat.toDigitsCore 10 (m * 10 + 1) (m * 10) []
      = Nat.toDigitsCore 10 (m * 10) m [Nat.digitChar 0] := by
    simp only [Nat.toDigitsCore, hdiv, hmod, hne, if_false]
  unfold decimal Nat.toDigits
  rw [hstep, toDigitsCore_acc, toDigitsCore_fuel (m * 10) (m + 1) m [] (by omega) (by omega)]
  simp [Nat.digitChar]

theorem decimal_mul_pow_ten (m : Nat) (hm : 0 < m) (z : Nat) :
    decimal (m * 10 ^ z) = decimal m ++ List.replicate z 48 := by
  induction z with
  | zero => simp
  | succ z ih =>
    have hpos : 0 < m * 10 ^ z := Nat.mul_pos hm (by positivity)
    rw [pow_succ, ← Nat.mul_assoc, decimal_mul_ten _ hpos, ih, List.replicate_succ',
      List.append_assoc]

theorem stripZeros_spec (fuel : Nat) : ∀ m : Nat, 0 < m →
    0 < stripZeros fuel m ∧
      ∃ z, m = stripZeros fuel m * 10 ^ z := by
  induction fuel with
  | zero => intro m hm; exact ⟨hm, 0, by simp [stripZeros]⟩
  | succ fuel ih =>
    intro m hm
    simp only [stripZeros]
    by_cases h : m % 10 = 0 ∧ m ≠ 0
    · simp only [h, and_self, ne_eq, not_false_eq_true, if_true]
      obtain ⟨hpos, z, hz⟩ := ih (m / 10) (by omega)
      refine ⟨hpos, z + 1, ?_⟩
      rw [pow_succ, ← Nat.mul_assoc, ← hz]
      omega
    · rw [if_neg h]
      exact ⟨hm, 0, by simp⟩

theorem decimal_length_le (m e : Nat) (he : 0 < e) (hm : m < 10 ^ e) :
    (decimal m).length ≤ e := by
  have := Nat.repr_length m e he hm
  simpa [decimal, Nat.repr] using this

theorem formatDecimal_stripZeros (m : Nat) (hpos : 0 < m) (hsafe : m < 2 ^ 53) :
    formatDecimal (stripZeros m m) (decimal m).length = decimal m := by
  obtain ⟨hs, z, hz⟩ := stripZeros_spec m m hpos
  have hdec := decimal_mul_pow_ten _ hs z
  rw [← hz] at hdec
  have hlen : (decimal m).length ≤ 21 :=
    decimal_length_le _ 21 (by decide) (lt_of_lt_of_le hsafe (by norm_num))
  have hlen2 : (decimal m).length
      = (decimal (stripZeros m m)).length + z := by
    rw [hdec]; simp
  have hcond : ((decimal (stripZeros m m)).length : Int)
      ≤ ((decimal m).length : Int) ∧ ((decimal m).length : Int) ≤ 21 := by
    constructor <;> omega
  have hz2 : (((decimal m).length : Int)
      - ((decimal (stripZeros m m)).length : Int)).toNat = z := by
    omega
  simp only [formatDecimal]
  rw [if_pos hcond, hz2, ← hdec]

theorem ofSafeInt_toJSString (i : Int) (hi : i ≠ 0) (hsafe : i.natAbs < 2 ^ 53) :
    (JSNumber.ofSafeInt i).toJSString = decimalInt i := by
  have hpos : 0 < i.natAbs := Int.natAbs_pos.mpr hi
  simp only [JSNumber.ofSafeInt, hi, if_false, JSNumber.toJSString, decimalInt,
    decide_eq_true_eq, formatDecimal_stripZeros _ hpos hsafe]

theorem toBoolean_eq_false_iff (name : Option JSValue) :
    toBoolean name = false ↔ Falsy name := by
  unfold Falsy
  rcases name with _ | v
  · simp [toBoolean]
  · cases v with
    | null => simp [toBoolean]
    | bool b => cases b <;> simp [toBoolean]
    | number x => cases x <;> simp [toBoolean, JSNumber.toBoolean]
    | string s => cases s <;> simp [toBoolean]
    | array elems => simp [toBoolean]
    | object members => simp [toBoolean]

theorem getElem?_append_cons {α : Type} (front : List α) (a : α) (back : List α) :
    (front ++ a :: back)[front.length]? = some a := by
  induction front with
  | nil => simp
  | cons x front ih => simpa using ih

/-! ## Conversions on known values -/

theorem toJSString_samples :
    (JSNumber.finite false 15 1).toJSString = utf16 "1.5" ∧
      (JSNumber.finite false 1 3).toJSString = utf16 "100" ∧
      (JSNumber.finite true 1 (-5)).toJSString = utf16 "-0.000001" ∧
      (JSNumber.finite false 1 (-6)).toJSString = utf16 "1e-7" ∧
      (JSNumber.finite false 12345 (-6)).toJSString = utf16 "1.2345e-7" ∧
      (JSNumber.finite false 1 22).toJSString = utf16 "1e+21" ∧
      (JSNumber.finite false 123456789 21).toJSString = utf16 "123456789000000000000" ∧
      (JSNumber.finite false 12 22).toJSString = utf16 "1.2e+21" ∧
      (JSNumber.zero true).toJSString = utf16 "0" ∧
      (JSNumber.infinity true).toJSString = utf16 "-Infinity" ∧
      JSNumber.ofSafeInt 1200 = .finite false 12 4 ∧
      (JSNumber.ofSafeInt 9007199254740991).toJSString = utf16 "9007199254740991" := by
  decide

theorem toJSString_array_samples :
    (JSValue.array [.bool true, .null, .array [.string (utf16 "a"), .object []],
        .number (.finite false 25 1)]).toJSString 2
      = .ok (utf16 "true,,a,[object Object],2.5") ∧
    (JSValue.array [.bool true, .null, .array [.string (utf16 "a"), .object []],
        .number (.finite false 25 1)]).toJSString 1
      = .error .rangeError ∧
    (JSValue.array [.array [.array []]]).toJSString 3 = .ok [] ∧
    (JSValue.array [.array [.array []]]).toJSString 2 = .error .rangeError ∧
    respond (listen 2) (.object [(utf16 "name", .array [.array [.array []]])])
      = .error .rangeError ∧
    respond (listen 3) (.object [(utf16 "name", .array [.array [.array []]])])
      = .ok ⟨200, [⟨200, messageBody []⟩]⟩ :=
  ⟨rfl, rfl, rfl, rfl, rfl, rfl⟩

/-! ## The claims -/

/-- C1: for every parsed request body whose `name` is a non-empty string `s`,
the handler writes exactly one response, with status 200 and the body
`{message: "Hello, " ++ s}`, `s` being copied code unit for code unit. -/
theorem greets_nonempty_string (process : Process) (body : JSValue) (s : JSString)
    (hname : body.getName = .ok (some (.string s))) (hs : s ≠ []) :
    respond process body
      = .ok ⟨200, [⟨200, .object [(utf16 "message", .string (utf16 "Hello, " ++ s))]⟩]⟩ := by
  have htruthy : toBoolean (some (.string s)) = true := by
    cases s with
    | nil => exact absurd rfl hs
    | cons c cs => rfl
  exact respond_greets process hname htruthy rfl

/-- Witness of C1 at the body `{"name": " \\"<b> "}`: blanks, a quote and
markup reach the message unchanged. -/
theorem greets_nonempty_string_witness :
    (JSValue.object [(utf16 "name", .string [32, 34, 60, 98, 62, 32])]).getName
        = .ok (some (.string [32, 34, 60, 98, 62, 32])) ∧
      ([32, 34, 60, 98, 62, 32] : JSString) ≠ [] ∧
      respond (listen 10000) (.object [(utf16 "name", .string [32, 34, 60, 98, 62, 32])])
        = .ok ⟨200, [⟨200, .object [(utf16 "message",
            .string [72, 101, 108, 108, 111, 44, 32, 32, 34, 60, 98, 62, 32])]⟩]⟩ :=
  ⟨rfl, by decide,
    greets_nonempty_string (listen 10000)
      (.object [(utf16 "name", .string [32, 34, 60, 98, 62, 32])])
      [32, 34, 60, 98, 62, 32] rfl (by decide)⟩

/-- C2: for every parsed request body whose `name` is missing, `null` or the
empty string, the handler writes exactly one response, with status 400 and
the body `{error: "Name is required"}`. -/
theorem rejects_missing_null_empty (process : Process) (body : JSValue)
    (hname : body.getName = .ok none ∨ body.getName = .ok (some .null) ∨
      body.getName = .ok (some (.string []))) :
    respond process body
      = .ok ⟨400, [⟨400, .object [(utf16 "error", .string (utf16 "Name is required"))]⟩]⟩ := by
  rcases hname with h | h | h <;> exact respond_falsy process h rfl

/-- Witness of C2 at the bodies `{}`, `{"name": null}` and `{"name": ""}`. -/
theorem rejects_missing_null_empty_witness :
    respond (listen 10000) (.object [])
        = .ok ⟨400, [⟨400, .object [(utf16 "error", .string (utf16 "Name is required"))]⟩]⟩ ∧
      respond (listen 10000) (.object [(utf16 "name", .null)])
        = .ok ⟨400, [⟨400, .object [(utf16 "error", .string (utf16 "Name is required"))]⟩]⟩ ∧
      respond (listen 10000) (.object [(utf16 "name", .string [])])
        = .ok ⟨400, [⟨400, .object [(utf16 "error", .string (utf16 "Name is required"))]⟩]⟩ :=
  ⟨rejects_missing_null_empty (listen 10000) (.object []) (Or.inl rfl),
    rejects_missing_null_empty (listen 10000) (.object [(utf16 "name", .null)])
      (Or.inr (Or.inl rfl)),
    rejects_missing_null_empty (listen 10000) (.object [(utf16 "name", .string [])])
      (Or.inr (Or.inr rfl))⟩

/-- C4: for every parsed request body whose `name` is the number 0 (of either
sign) or the boolean `false`, the handler answers with status 400 and the
body `{error: "Name is required"}`, which is its answer to the body `{}`
where the key is missing. -/
theorem rejects_zero_and_false (process : Process) (body : JSValue)
    (hname : (∃ negative, body.getName = .ok (some (.number (.zero negative)))) ∨
      body.getName = .ok (some (.bool false))) :
    respond process body
        = .ok ⟨400, [⟨400, .object [(utf16 "error", .string (utf16 "Name is required"))]⟩]⟩ ∧
      respond process body = respond process (.object []) := by
  have h : respond process body = .ok ⟨400, [⟨400, errorBody⟩]⟩ := by
    rcases hname with ⟨negative, h⟩ | h <;> exact respond_falsy process h rfl
  have hget : (JSValue.object []).getName = .ok none := rfl
  have hempty : respond process (.object []) = .ok ⟨400, [⟨400, errorBody⟩]⟩ :=
    respond_falsy process hget rfl
  exact ⟨h, h.trans hempty.symm⟩

/-- Witness of C4 at the bodies `{"name": 0}` and `{"name": false}`. -/
theorem rejects_zero_and_false_witness :
    respond (listen 10000) (.object [(utf16 "name", .number (.zero false))])
        = respond (listen 10000) (.object []) ∧
      respond (listen 10000) (.object [(utf16 "name", .bool false)])
        = respond (listen 10000) (.object []) :=
  ⟨(rejects_zero_and_false (listen 10000) (.object [(utf16 "name", .number (.zero false))])
      (Or.inl ⟨false, rfl⟩)).2,
    (rejects_zero_and_false (listen 10000) (.object [(utf16 "name", .bool false)])
      (Or.inr rfl)).2⟩

/-- C5: the handler keeps no hidden state.  It runs inside the process and
could write its state, but it only reads it (the stack left for the
conversion of `name`).  So when the server, started in any process state,
serves any sequence of requests in which the body `body` arrives twice,
whatever comes before, between and after, both occurrences get the same
outcome (status code and response body), namely that of serving `body`
alone in the initial state, and the whole run leaves the process state as it
found it: nothing accumulates. -/
theorem same_request_same_response (process : Process)
    (before between after : List JSValue) (body : JSValue) :
    (serve process (before ++ body :: (between ++ body :: after))).1[before.length]?
        = some (respond process body) ∧
      (serve process (before ++ body :: (between ++ body :: after))).1[
          before.length + 1 + between.length]?
        = some (respond process body) ∧
      (serve process (before ++ body :: (between ++ body :: after))).2 = process := by
  rw [serve_eq]
  refine ⟨?_, ?_, rfl⟩
  · simpa using getElem?_append_cons (before.map (respond process)) (respond process body) _
  · have h := getElem?_append_cons
      (before.map (respond process) ++ respond process body :: between.map (respond process))
      (respond process body) (after.map (respond process))
    simpa [Nat.add_assoc, Nat.add_comm 1] using h

/-- C9: the outcome depends on the binding of `name` only.  Two request
bodies in which `name` has the same value, or which both lack it, get the
same status code and the same response body, whatever else they hold. -/
theorem depends_only_on_name (process : Process) (body₁ body₂ : JSValue)
    (hname : body₁.getName = body₂.getName) :
    respond process body₁ = respond process body₂ := by
  simp only [respond, dispatch_eq, hname]

/-- Witness of C9 at the bodies `{"name": "Ada"}` and
`{"id": 7, "name": "Ada", "admin": true}`. -/
theorem depends_only_on_name_witness :
    respond (listen 10000) (.object [(utf16 "name", .string (utf16 "Ada"))])
      = respond (listen 10000) (.object [(utf16 "id", .number (.finite false 7 1)),
          (utf16 "name", .string (utf16 "Ada")), (utf16 "admin", .bool true)]) :=
  depends_only_on_name (listen 10000) _ _ rfl

/-- C3, refuted as stated: on the parsed body `{"name": {"toString": null}}`
the handler throws a `TypeError` while converting `name` to a string, so it
produces no response body holding `message` or `error`. -/
theorem one_key_counterexample :
    (JSValue.object [(utf16 "name", .object [(utf16 "toString", .null)])]).parsedBody = true ∧
      respond (listen 10000) (.object [(utf16 "name", .object [(utf16 "toString", .null)])])
        = .error .typeError ∧
      ¬ ∃ res resp,
        respond (listen 10000) (.object [(utf16 "name", .object [(utf16 "toString", .null)])])
            = .ok res ∧
          res.sent = [resp] ∧ resp.body.oneKey := by
  refine ⟨rfl, rfl, ?_⟩
  rintro ⟨res, resp, h, -⟩
  have e : respond (listen 10000)
      (.object [(utf16 "name", .object [(utf16 "toString", .null)])])
      = .error .typeError := rfl
  rw [e] at h
  cases h

/-- C3, amended: for every parsed request body, every response body that
the handler produces holds exactly one of the keys `message` and `error`
(never both, never neither, no other key), and the handler produces one
whenever the string conversion of `name` does not throw, in particular
whenever `name` is missing, `null`, a boolean, a number, a string or an
object without an own `toString` member. -/
theorem one_key_when_converted (process : Process) (body : JSValue)
    (name : Option JSValue) (hname : body.getName = .ok name) :
    (∀ res resp, respond process body = .ok res → resp ∈ res.sent → resp.body.oneKey) ∧
      ((toBoolean name = false ∨ ∃ greeting, toJSString name process.stack = .ok greeting) →
        ∃ res resp, respond process body = .ok res ∧ res.sent = [resp] ∧ resp.body.oneKey) ∧
      (directName name = true →
        ∃ res resp, respond process body = .ok res ∧ res.sent = [resp] ∧ resp.body.oneKey) := by
  have hconverted : (toBoolean name = false ∨
      ∃ greeting, toJSString name process.stack = .ok greeting) →
      ∃ res resp, respond process body = .ok res ∧ res.sent = [resp] ∧ resp.body.oneKey := by
    intro hc
    rcases respond_cases process hname with ⟨-, h⟩ | ⟨-, g, -, h⟩ | ⟨ht, e, he, -⟩
    · exact ⟨_, _, h, rfl, Or.inr rfl⟩
    · exact ⟨_, _, h, rfl, Or.inl rfl⟩
    · rcases hc with hf | ⟨g, hg⟩
      · rw [hf] at ht
        cases ht
      · rw [hg] at he
        cases he
  refine ⟨?_, hconverted, fun hd => hconverted (Or.inr (toJSString_direct hd _))⟩
  intro res resp hres hmem
  rcases respond_cases process hname with ⟨-, h⟩ | ⟨-, g, -, h⟩ | ⟨-, e, -, h⟩
  · rw [h] at hres
    cases hres
    simp only [List.mem_singleton] at hmem
    subst hmem
    exact Or.inr rfl
  · rw [h] at hres
    cases hres
    simp only [List.mem_singleton] at hmem
    subst hmem
    exact Or.inl rfl
  · rw [h] at hres
    cases hres

/-- Witness of amended C3 at the body `{"name": {"b": 1}}`. -/
theorem one_key_when_converted_witness :
    (JSValue.object [(utf16 "name",
        .object [(utf16 "b", .number (.finite false 1 1))])]).getName
        = .ok (some (.object [(utf16 "b", .number (.finite false 1 1))])) ∧
      ∃ res resp,
        respond (listen 10000)
            (.object [(utf16 "name", .object [(utf16 "b", .number (.finite false 1 1))])])
          = .ok res ∧ res.sent = [resp] ∧ resp.body.oneKey :=
  ⟨rfl, (one_key_when_converted (listen 10000)
    (.object [(utf16 "name", .object [(utf16 "b", .number (.finite false 1 1))])])
    _ rfl).2.2 rfl⟩

/-- C6, refuted as stated: on the parsed body `{"name": true}` the name is not
a string, yet the handler answers with status 200 and `{message: "Hello,
true"}` instead of rejecting it with status 400. -/
theorem only_strings_valid_counterexample :
    (JSValue.object [(utf16 "name", .bool true)]).getName = .ok (some (.bool true)) ∧
      respond (listen 10000) (.object [(utf16 "name", .bool true)])
        = .ok ⟨200, [⟨200, .object [(utf16 "message", .string (utf16 "Hello, true"))]⟩]⟩ ∧
      ¬ ∃ res resp, respond (listen 10000) (.object [(utf16 "name", .bool true)]) = .ok res ∧
          res.sent = [resp] ∧ resp.status = 400 := by
  refine ⟨rfl, rfl, ?_⟩
  rintro ⟨res, resp, h, hsent, hstatus⟩
  have e : respond (listen 10000) (.object [(utf16 "name", .bool true)])
      = .ok ⟨200, [⟨200, messageBody (utf16 "true")⟩]⟩ := rfl
  rw [e] at h
  cases h
  cases hsent
  cases hstatus

/-- C6, amended: the handler treats `name` as valid exactly when it is truthy.
For every parsed request body, if the response has status 200 then `name` is
a non-empty string, a non-zero number, `true`, an array or an object; and a
non-string `name` is rejected with status 400 if and only if it is `null`,
the number 0 or `false`. -/
theorem valid_iff_truthy (process : Process) (body : JSValue) (name : Option JSValue)
    (hname : body.getName = .ok name) :
    (∀ res resp, respond process body = .ok res → resp ∈ res.sent → resp.status = 200 →
        ∃ v, name = some v ∧
          ((∃ s, v = .string s ∧ s ≠ []) ∨
            (∃ x, v = .number x ∧ ∀ negative, x ≠ .zero negative) ∨
            v = .bool true ∨ (∃ elems, v = .array elems) ∨ (∃ members, v = .object members))) ∧
      (∀ v, name = some v → (∀ s, v ≠ .string s) →
        ((∃ res resp, respond process body = .ok res ∧ res.sent = [resp] ∧ resp.status = 400)
          ↔ (v = .null ∨ (∃ negative, v = .number (.zero negative)) ∨ v = .bool false))) := by
  constructor
  · intro res resp hres hmem hstatus
    have htruthy : toBoolean name = true := by
      rcases respond_cases process hname with ⟨-, h⟩ | ⟨ht, -⟩ | ⟨ht, -⟩
      · rw [h] at hres
        cases hres
        simp only [List.mem_singleton] at hmem
        subst hmem
        cases hstatus
      · exact ht
      · exact ht
    rcases name with _ | v
    · simp [toBoolean] at htruthy
    · refine ⟨v, rfl, ?_⟩
      cases v with
      | null => simp [toBoolean] at htruthy
      | bool b => cases b <;> simp_all [toBoolean]
      | number x => cases x <;> simp_all [toBoolean, JSNumber.toBoolean]
      | string s => cases s <;> simp_all [toBoolean]
      | array elems => simp
      | object members => simp
  · intro v hv hstr
    subst hv
    have hfalsy := toBoolean_eq_false_iff (some v)
    constructor
    · rintro ⟨res, resp, hres, hsent, hstatus⟩
      have hf : toBoolean (some v) = false := by
        rcases respond_cases process hname with ⟨hf, -⟩ | ⟨-, g, -, h⟩ | ⟨-, e, -, h⟩
        · exact hf
        · rw [h] at hres
          cases hres
          cases hsent
          cases hstatus
        · rw [h] at hres
          cases hres
      rcases hfalsy.1 hf with h | h | h | ⟨negative, h⟩ | h
      · cases h
      · cases h; exact Or.inl rfl
      · cases h; exact absurd rfl (hstr [])
      · cases h; exact Or.inr (Or.inl ⟨negative, rfl⟩)
      · cases h; exact Or.inr (Or.inr rfl)
    · intro h
      have hf : toBoolean (some v) = false := by
        rcases h with rfl | ⟨negative, rfl⟩ | rfl <;> rfl
      exact ⟨_, _, respond_falsy process hname hf, rfl, rfl⟩

/-- Witness of amended C6 at the body `{"name": 0}`: a non-string name that
is rejected with status 400. -/
theorem valid_iff_truthy_witness :
    ∃ res resp,
      respond (listen 10000) (.object [(utf16 "name", .number (.zero false))]) = .ok res ∧
        res.sent = [resp] ∧ resp.status = 400 :=
  ((valid_iff_truthy (listen 10000) (.object [(utf16 "name", .number (.zero false))]) _ rfl).2
    (.number (.zero false)) rfl (fun s h => by cases h)).2 (Or.inr (Or.inl ⟨false, rfl⟩))

/-- C7, refuted as stated, at three parsed bodies.  On `{"name": {"toString":
"x"}}` the name is a plain object, yet the handler throws a `TypeError`
instead of answering `{message: "Hello, [object Object]"}`.  On `{"name":
1000000000000000000000}` the name is the integer `10^21`, whose Number has
the digit 1 and exponent 22, and the message is `Hello, 1e+21`.  On `{"name":
9007199254740993}` the name is the integer `2^53 + 1`, which is read as the
Number `9007199254740992`, and the message ends in that number. -/
theorem interpolates_non_string_counterexample :
    (respond (listen 10000)
          (.object [(utf16 "name", .object [(utf16 "toString", .string (utf16 "x"))])])
        = .error .typeError ∧
      respond (listen 10000)
          (.object [(utf16 "name", .object [(utf16 "toString", .string (utf16 "x"))])])
        ≠ .ok ⟨200, [⟨200, .object [(utf16 "message",
            .string (utf16 "Hello, [object Object]"))]⟩]⟩) ∧
      (respond (listen 10000) (.object [(utf16 "name", .number (.finite false 1 22))])
        = .ok ⟨200, [⟨200, .object [(utf16 "message", .string (utf16 "Hello, 1e+21"))]⟩]⟩ ∧
      utf16 "Hello, 1e+21" ≠ utf16 "Hello, " ++ decimalInt (10 ^ 21)) ∧
      (respond (listen 10000)
          (.object [(utf16 "name", .number (.finite false 9007199254740992 16))])
        = .ok ⟨200, [⟨200, .object [(utf16 "message",
            .string (utf16 "Hello, 9007199254740992"))]⟩]⟩ ∧
      utf16 "Hello, 9007199254740992" ≠ utf16 "Hello, " ++ decimalInt (2 ^ 53 + 1)) := by
  refine ⟨⟨rfl, ?_⟩, ⟨rfl, by decide⟩, ⟨rfl, by decide⟩⟩
  have e : respond (listen 10000)
      (.object [(utf16 "name", .object [(utf16 "toString", .string (utf16 "x"))])])
      = .error .typeError := rfl
  rw [e]
  intro h
  cases h

/-- C7, amended: for every parsed request body whose `name` is a truthy
non-string value on which JavaScript string conversion completes, the handler
answers with status 200 and the message `Hello, ` followed by that
conversion.  In particular a non-zero integer `i` with `|i| < 2^53` gives
`{message: "Hello, " ++ decimal(i)}`, the boolean `true` gives `{message:
"Hello, true"}`, and any object without an own `toString` member gives
`{message: "Hello, [object Object]"}`. -/
theorem interpolates_non_string (process : Process) (body : JSValue) (v : JSValue)
    (hname : body.getName = .ok (some v)) :
    (∀ greeting, (∀ s, v ≠ .string s) → toBoolean (some v) = true →
        v.toJSString process.stack = .ok greeting →
        respond process body
          = .ok ⟨200, [⟨200, .object [(utf16 "message",
              .string (utf16 "Hello, " ++ greeting))]⟩]⟩) ∧
      (∀ i : Int, i ≠ 0 → i.natAbs < 2 ^ 53 → v = .number (.ofSafeInt i) →
        respond process body
          = .ok ⟨200, [⟨200, .object [(utf16 "message",
              .string (utf16 "Hello, " ++ decimalInt i))]⟩]⟩) ∧
      (v = .bool true →
        respond process body
          = .ok ⟨200, [⟨200, .object [(utf16 "message", .string (utf16 "Hello, true"))]⟩]⟩) ∧
      (∀ members, v = .object members → hasOwn (utf16 "toString") members = false →
        respond process body
          = .ok ⟨200, [⟨200, .object [(utf16 "message",
              .string (utf16 "Hello, [object Object]"))]⟩]⟩) := by
  refine ⟨?_, ?_, ?_, ?_⟩
  · intro greeting _ htruthy hconv
    exact respond_greets process hname htruthy hconv
  · intro i hi hsafe hv
    subst hv
    have htruthy : toBoolean (some (.number (.ofSafeInt i))) = true := by
      simp [toBoolean, JSNumber.ofSafeInt, hi, JSNumber.toBoolean]
    have hconv : toJSString (some (.number (.ofSafeInt i))) process.stack
        = .ok (decimalInt i) := by
      simp [toJSString, JSValue.toJSString, ofSafeInt_toJSString i hi hsafe]
    exact respond_greets process hname htruthy hconv
  · intro hv
    subst hv
    exact respond_greets process hname rfl rfl
  · intro members hv hown
    subst hv
    have hconv : toJSString (some (.object members)) process.stack
        = .ok (utf16 "[object Object]") := by
      simp [toJSString, JSValue.toJSString, hown]
    exact respond_greets process hname rfl hconv

/-- Witness of amended C7 at the body `{"name": -1200}`. -/
theorem interpolates_non_string_witness :
    respond (listen 10000) (.object [(utf16 "name", .number (.ofSafeInt (-1200)))])
      = .ok ⟨200, [⟨200, .object [(utf16 "message", .string (utf16 "Hello, -1200"))]⟩]⟩ :=
  (interpolates_non_string (listen 10000)
    (.object [(utf16 "name", .number (.ofSafeInt (-1200)))]) _ rfl).2.1
    (-1200) (by decide) (by decide) rfl

/-- C8, refuted as stated: on the parsed body `{"name": [{"toString": 1}]}`
the handler throws a `TypeError`, so there is no response of the handler
with status 200 or 400. -/
theorem status_200_or_400_counterexample :
    (JSValue.object [(utf16 "name",
        .array [.object [(utf16 "toString", .number (.finite false 1 1))]])]).parsedBody = true ∧
      respond (listen 10000) (.object [(utf16 "name",
          .array [.object [(utf16 "toString", .number (.finite false 1 1))]])])
        = .error .typeError ∧
      ¬ ∃ res resp,
        respond (listen 10000) (.object [(utf16 "name",
            .array [.object [(utf16 "toString", .number (.finite false 1 1))]])]) = .ok res ∧
          res.sent = [resp] ∧ (resp.status = 200 ∨ resp.status = 400) := by
  refine ⟨rfl, rfl, ?_⟩
  rintro ⟨res, resp, h, -⟩
  have e : respond (listen 10000) (.object [(utf16 "name",
      .array [.object [(utf16 "toString", .number (.finite false 1 1))]])])
      = .error .typeError := rfl
  rw [e] at h
  cases h

/-- C8, amended: for every parsed request body on which the handler does not
throw, which it does not whenever the string conversion of `name` completes
and in particular whenever `name` is missing, `null`, a boolean, a number, a
string or an object without an own `toString` member, the status code of the
response is either 200 or 400, it is 400 if and only if `name` is falsy
(missing or `undefined`, `null`, `""`, 0, `false`), and the status determines
the key of the body: 400 goes with `error` and 200 with `message`.  For every
parsed request body, the handler answers with status 400 if and only if
`name` is falsy. -/
theorem status_400_iff_falsy (process : Process) (body : JSValue) (name : Option JSValue)
    (hname : body.getName = .ok name) :
    (∀ res resp, respond process body = .ok res → resp ∈ res.sent →
        (resp.status = 200 ∨ resp.status = 400) ∧
        (resp.status = 400 ↔ Falsy name) ∧
        (resp.status = 400 → resp.body.keys = [utf16 "error"]) ∧
        (resp.status = 200 → resp.body.keys = [utf16 "message"])) ∧
      ((toBoolean name = false ∨ ∃ greeting, toJSString name process.stack = .ok greeting) →
        ∃ res resp, respond process body = .ok res ∧ res.sent = [resp]) ∧
      (directName name = true →
        ∃ res resp, respond process body = .ok res ∧ res.sent = [resp]) ∧
      ((∃ res resp, respond process body = .ok res ∧ res.sent = [resp] ∧ resp.status = 400)
        ↔ Falsy name) := by
  have hfalsy := toBoolean_eq_false_iff name
  have hconverted : (toBoolean name = false ∨
      ∃ greeting, toJSString name process.stack = .ok greeting) →
      ∃ res resp, respond process body = .ok res ∧ res.sent = [resp] := by
    intro hc
    rcases respond_cases process hname with ⟨-, h⟩ | ⟨-, g, -, h⟩ | ⟨ht, e, he, -⟩
    · exact ⟨_, _, h, rfl⟩
    · exact ⟨_, _, h, rfl⟩
    · rcases hc with hf | ⟨g, hg⟩
      · rw [hf] at ht
        cases ht
      · rw [hg] at he
        cases he
  refine ⟨?_, hconverted, fun hd => hconverted (Or.inr (toJSString_direct hd _)), ⟨?_, ?_⟩⟩
  · intro res resp hres hmem
    rcases respond_cases process hname with ⟨hf, h⟩ | ⟨ht, g, -, h⟩ | ⟨-, e, -, h⟩
    · rw [h] at hres
      cases hres
      simp only [List.mem_singleton] at hmem
      subst hmem
      exact ⟨Or.inr rfl, ⟨fun _ => hfalsy.1 hf, fun _ => rfl⟩, fun _ => rfl,
        fun h200 => (by cases h200)⟩
    · rw [h] at hres
      cases hres
      simp only [List.mem_singleton] at hmem
      subst hmem
      refine ⟨Or.inl rfl, ⟨fun h400 => (by cases h400), fun hF => ?_⟩,
        fun h400 => (by cases h400), fun _ => rfl⟩
      rw [hfalsy.2 hF] at ht
      cases ht
    · rw [h] at hres
      cases hres
  · rintro ⟨res, resp, hres, hsent, hstatus⟩
    rcases respond_cases process hname with ⟨hf, -⟩ | ⟨-, g, -, h⟩ | ⟨-, e, -, h⟩
    · exact hfalsy.1 hf
    · rw [h] at hres
      cases hres
      cases hsent
      cases hstatus
    · rw [h] at hres
      cases hres
  · intro hF
    exact ⟨_, _, respond_falsy process hname (hfalsy.2 hF), rfl, rfl⟩

/-- Witness of amended C8 at the body `{"name": "Ada"}`. -/
theorem status_400_iff_falsy_witness :
    (JSValue.object [(utf16 "name", .string (utf16 "Ada"))]).getName
        = .ok (some (.string (utf16 "Ada"))) ∧
      ∃ res resp,
        respond (listen 10000) (.object [(utf16 "name", .string (utf16 "Ada"))]) = .ok res ∧
          res.sent = [resp] :=
  ⟨rfl, (status_400_iff_falsy (listen 10000)
    (.object [(utf16 "name", .string (utf16 "Ada"))]) _ rfl).2.2.1 rfl⟩

/-- C10, refuted as stated: the parsed body `{"name": {"toString": 0}}` is a
JSON object, and on it the handler throws a `TypeError` instead of sending a
response. -/
theorem never_throws_counterexample :
    (JSValue.object [(utf16 "name",
        .object [(utf16 "toString", .number (.zero false))])]).parsedBody = true ∧
      dispatch (listen 10000)
          (.object [(utf16 "name", .object [(utf16 "toString", .number (.zero false))])])
        = (.error .typeError, listen 10000) :=
  ⟨rfl, rfl⟩

/-- C10, amended: for every parsed request body that is a JSON object or a
JSON array, reading `name` does not throw, and whenever the string conversion
of `name` does not throw, in particular whenever `name` is missing, `null`, a
boolean, a number, a string or an object without an own `toString` member,
the handler does not throw and sends exactly one response: when `name` is
falsy the 400 response is the only one sent, the 200 response never
following it, and an array body, which has no `name`, yields the 400 error
response. -/
theorem one_response_when_converted (process : Process) (body : JSValue)
    (hbody : body.parsedBody = true) :
    ∃ name, body.getName = .ok name ∧
      ((toBoolean name = false ∨ ∃ greeting, toJSString name process.stack = .ok greeting) →
        ∃ res resp, respond process body = .ok res ∧ res.sent = [resp]) ∧
      (directName name = true →
        ∃ res resp, respond process body = .ok res ∧ res.sent = [resp]) ∧
      (toBoolean name = false →
        respond process body
          = .ok ⟨400, [⟨400, .object [(utf16 "error",
              .string (utf16 "Name is required"))]⟩]⟩) ∧
      (∀ elems, body = .array elems →
        respond process body
          = .ok ⟨400, [⟨400, .object [(utf16 "error",
              .string (utf16 "Name is required"))]⟩]⟩) := by
  have hget : ∃ name, body.getName = .ok name := by
    cases body <;> first | exact ⟨_, rfl⟩ | cases hbody
  obtain ⟨name, hname⟩ := hget
  have hconverted : (toBoolean name = false ∨
      ∃ greeting, toJSString name process.stack = .ok greeting) →
      ∃ res resp, respond process body = .ok res ∧ res.sent = [resp] := by
    intro hc
    rcases respond_cases process hname with ⟨-, h⟩ | ⟨-, g, -, h⟩ | ⟨ht, e, he, -⟩
    · exact ⟨_, _, h, rfl⟩
    · exact ⟨_, _, h, rfl⟩
    · rcases hc with hf | ⟨g, hg⟩
      · rw [hf] at ht
        cases ht
      · rw [hg] at he
        cases he
  refine ⟨name, hname, hconverted, fun hd => hconverted (Or.inr (toJSString_direct hd _)),
    respond_falsy process hname, ?_⟩
  intro elems hb
  subst hb
  have hnone : (JSValue.array elems).getName = .ok none := rfl
  exact respond_falsy process hnone rfl

/-- Witness of amended C10 at the array body `[{"name": "Ada"}]`. -/
theorem one_response_when_converted_witness :
    (JSValue.array [.object [(utf16 "name", .string (utf16 "Ada"))]]).parsedBody = true ∧
      respond (listen 10000) (.array [.object [(utf16 "name", .string (utf16 "Ada"))]])
        = .ok ⟨400, [⟨400, .object [(utf16 "error",
            .string (utf16 "Name is required"))]⟩]⟩ :=
  ⟨rfl,
    let ⟨_, _, _, _, _, harray⟩ := one_response_when_converted (listen 10000)
      (.array [.object [(utf16 "name", .string (utf16 "Ada"))]]) rfl
    harray _ rfl⟩

end Greeter
